import Mathlib

/-!
# Verification of the poker-night chip-distribution allocator

Shallow embedding of `backend/scripts/chip_calculator.py`
(`calculate_chip_distribution`) and of the HTTP handler
`backend/app/routes/chip_calculator.py` (`get_chip_distribution_api`).

Modelling conventions:
* Python `int` is modelled as `ℤ`; Python `//` on ints is `Int.fdiv`
  (floor division) and `%` is `Int.fmod` (floor modulus), which agree with
  Python on all signs.
* The buy-in amount (a Python float) is modelled as a rational number `ℚ`.
  Python's `round` on floats rounds half to even, modelled by
  `round_half_even` below; `int(round(x))` is the identity on the result.
* The chip table stores `int(value * 100)` directly as integer cents
  (the five float literals `1.00, 0.50, 0.20, 0.10, 0.05` all satisfy
  `int(value * 100) = 100, 50, 20, 10, 5` exactly in IEEE doubles).
* The source signals errors by printing a message and returning `None`;
  the two distinct error messages are modelled by the two constructors of
  `ChipError`, so the embedded function returns `Except ChipError _`.
* A Python dict with string keys, built from the fixed five-entry table
  and updated in place, is modelled as an association list
  `List (String × ℤ)` with `updateCount` as the in-place update.
-/

namespace PokerNight

/-- The two error conditions of `calculate_chip_distribution`, distinguished
in the source by their printed messages:
`"Error: Total buy-in must be a positive number."` (non-positive input) and
`"Error: Chip values or weights cannot result in a zero-value set."`
(degenerate configuration). -/
inductive ChipError where
  | invalidAmount : ChipError
  | zeroValueSet : ChipError
  deriving DecidableEq, Repr

instance {ε α : Type} [DecidableEq ε] [DecidableEq α] :
    DecidableEq (Except ε α) := fun x y =>
  match x, y with
  | .ok a, .ok b => decidable_of_iff (a = b) (by simp)
  | .error a, .error b => decidable_of_iff (a = b) (by simp)
  | .ok _, .error _ => isFalse (by simp)
  | .error _, .ok _ => isFalse (by simp)

/-- One entry of the `chip_definitions` table: name, unit value in integer
cents (`int(value * 100)` in the source), and weight. -/
structure ChipDef where
  name : String
  valueCents : ℤ
  weight : ℤ
  deriving DecidableEq, Repr

/-- The fixed table from the source:
`[("Black", 1.00, 10), ("Blue", 0.50, 10), ("Green", 0.20, 13),
  ("Red", 0.10, 14), ("White", 0.05, 20)]`, values in cents. -/
def chip_definitions : List ChipDef :=
  [⟨"Black", 100, 10⟩, ⟨"Blue", 50, 10⟩, ⟨"Green", 20, 13⟩,
   ⟨"Red", 10, 14⟩, ⟨"White", 5, 20⟩]

/-- `chip_values_desc = [(name, val) for name, val, _ in chip_definitions]`. -/
def chip_values_desc (defs : List ChipDef) : List (String × ℤ) :=
  defs.map fun c => (c.name, c.valueCents)

/-- Python's `round` on a value half-way between two integers rounds to the
even neighbour (banker's rounding); otherwise to the nearest integer. -/
def round_half_even (q : ℚ) : ℤ :=
  let f := ⌊q⌋
  if q - f < 1 / 2 then f
  else if 1 / 2 < q - f then f + 1
  else if f % 2 = 0 then f else f + 1

/-- `chip_distribution[name] += add` on the association-list model of the
dict: every entry with the given key has the addend added to its count. -/
def updateCount (dist : List (String × ℤ)) (name : String) (add : ℤ) :
    List (String × ℤ) :=
  dist.map fun p => if p.1 = name then (p.1, p.2 + add) else p

/-- The greedy remainder loop of the source:
```
for chip_name, chip_value in chip_values_desc:
    chip_value_cents = int(chip_value * 100)
    if remaining_cents >= chip_value_cents:
        additional_chips = remaining_cents // chip_value_cents
        chip_distribution[chip_name] += additional_chips
        remaining_cents -= additional_chips * chip_value_cents
```
returning the final dict together with the final `remaining_cents`. -/
def distribute_remainder :
    List (String × ℤ) → List (String × ℤ) → ℤ → List (String × ℤ) × ℤ
  | [], dist, rem => (dist, rem)
  | (name, v) :: rest, dist, rem =>
    if v ≤ rem then
      distribute_remainder rest (updateCount dist name (rem.fdiv v))
        (rem - rem.fdiv v * v)
    else
      distribute_remainder rest dist rem

/-- `calculate_chip_distribution`, parameterized by the chip table (the
source fixes the table inside the function body; the parameterized form is
used to express the degenerate-configuration error path). -/
def calculate_chip_distribution_gen (defs : List ChipDef)
    (total_buy_in : ℚ) : Except ChipError (List (String × ℤ)) :=
  if total_buy_in ≤ 0 then .error .invalidAmount
  else
    let total_cents : ℤ := round_half_even (total_buy_in * 100)
    let value_of_weighted_set : ℤ :=
      (defs.map fun c => c.valueCents * c.weight).sum
    if value_of_weighted_set = 0 then .error .zeroValueSet
    else
      let num_sets := total_cents.fdiv value_of_weighted_set
      let base := defs.map fun c => (c.name, num_sets * c.weight)
      let remaining_cents := total_cents.fmod value_of_weighted_set
      .ok (distribute_remainder (chip_values_desc defs) base remaining_cents).1

/-- `calculate_chip_distribution` of `backend/scripts/chip_calculator.py`
with its fixed five-denomination table. -/
def calculate_chip_distribution (total_buy_in : ℚ) :
    Except ChipError (List (String × ℤ)) :=
  calculate_chip_distribution_gen chip_definitions total_buy_in

/-- The value of `remaining_cents` after the greedy loop finishes, for the
fixed table (the source computes it as a local variable and discards it). -/
def remainder_after_pass (total_buy_in : ℚ) : ℤ :=
  let total_cents : ℤ := round_half_even (total_buy_in * 100)
  let value_of_weighted_set : ℤ :=
    (chip_definitions.map fun c => c.valueCents * c.weight).sum
  let num_sets := total_cents.fdiv value_of_weighted_set
  let base := chip_definitions.map fun c => (c.name, num_sets * c.weight)
  (distribute_remainder (chip_values_desc chip_definitions) base
    (total_cents.fmod value_of_weighted_set)).2

/-- The per-colour unit value in cents, mirroring `chip_value_map` of
`display_distribution` (same values as `chip_definitions`). -/
def chip_value_map (name : String) : ℤ :=
  if name = "Black" then 100
  else if name = "Blue" then 50
  else if name = "Green" then 20
  else if name = "Red" then 10
  else if name = "White" then 5
  else 0

/-- Total monetary value in cents of a distribution:
`Σ count[d] * unit_value_cents[d]`. -/
def distribution_value_cents (dist : List (String × ℤ)) : ℤ :=
  (dist.map fun p => p.2 * chip_value_map p.1).sum

/-- Response of the HTTP handler: either the JSON payload
`{buy_in, chip_distribution, total_chips}` or an error status with a
message. -/
inductive ApiResponse where
  | ok (buy_in : ℚ) (chip_distribution : List (String × ℤ)) (total_chips : ℤ)
  | err (status : ℕ) (message : String)
  deriving DecidableEq, Repr

/-- `get_chip_distribution_api` of `backend/app/routes/chip_calculator.py`,
parameterized by the chip table used by the imported calculator. A `None`
result and an empty dict are both falsy in `if not chip_distribution`, hence
both map to the 500 branch. -/
def get_chip_distribution_api_gen (defs : List ChipDef) (buy_in : ℚ) :
    ApiResponse :=
  if buy_in ≤ 0 then .err 400 "Buy-in amount must be positive"
  else
    match calculate_chip_distribution_gen defs buy_in with
    | .error _ => .err 500 "Failed to calculate chip distribution"
    | .ok dist =>
      if dist.isEmpty then .err 500 "Failed to calculate chip distribution"
      else .ok buy_in dist (dist.map Prod.snd).sum

/-- The HTTP handler with the actual imported calculator. -/
def get_chip_distribution_api (buy_in : ℚ) : ApiResponse :=
  get_chip_distribution_api_gen chip_definitions buy_in

/-- The reference algorithm of the specification's "Algorithm" section,
parameterized by `unit_set_value_cents` (step 3) and acting on
`total_cents` (step 2): `num_sets = total_cents // unit_set_value_cents`
(step 4), base `count[d] = num_sets * weight[d]` (step 5),
`remainder_cents = total_cents % unit_set_value_cents` (step 6), then the
greedy pass Black → Blue → Green → Red → White with
`extra = remainder_cents // unit_value_cents[d]`,
`count[d] += extra`, `remainder_cents -= extra * unit_value_cents[d]`
(step 7). -/
def reference_distribution (unit_set_value_cents total_cents : ℤ) :
    List (String × ℤ) :=
  let num_sets := total_cents.fdiv unit_set_value_cents
  let r0 := total_cents.fmod unit_set_value_cents
  let e1 := r0.fdiv 100
  let r1 := r0 - e1 * 100
  let e2 := r1.fdiv 50
  let r2 := r1 - e2 * 50
  let e3 := r2.fdiv 20
  let r3 := r2 - e3 * 20
  let e4 := r3.fdiv 10
  let r4 := r3 - e4 * 10
  let e5 := r4.fdiv 5
  [("Black", num_sets * 10 + e1), ("Blue", num_sets * 10 + e2),
   ("Green", num_sets * 13 + e3), ("Red", num_sets * 14 + e4),
   ("White", num_sets * 20 + e5)]

/-! ## Helper lemmas -/

/-- Adding zero chips of a colour leaves the dict unchanged. -/
theorem updateCount_zero (dist : List (String × ℤ)) (name : String) :
    updateCount dist name 0 = dist := by
  induction dist with
  | nil => rfl
  | cons p rest ih =>
    simp only [updateCount, List.map_cons] at ih ⊢
    rw [ih]
    by_cases h : p.1 = name
    · rw [if_pos h, add_zero, Prod.mk.eta]
    · rw [if_neg h]

/-- `a.fmod b = a - a.fdiv b * b`. -/
theorem fmod_eq_sub_fdiv_mul (a b : ℤ) : a.fmod b = a - a.fdiv b * b := by
  have h := Int.fdiv_add_fmod a b
  linarith [h, mul_comm b (a.fdiv b)]

/-- One step of the greedy loop: whether or not the guard
`remaining_cents >= chip_value_cents` fires, the effect for a positive
denomination and a non-negative remainder is to add `rem // v` chips and
replace the remainder by `rem % v`. -/
theorem distribute_remainder_cons (name : String) (v : ℤ)
    (rest dist : List (String × ℤ)) (rem : ℤ) (hv : 0 < v) (hr : 0 ≤ rem) :
    distribute_remainder ((name, v) :: rest) dist rem
      = distribute_remainder rest (updateCount dist name (rem.fdiv v))
          (rem.fmod v) := by
  rw [distribute_remainder]
  by_cases h : v ≤ rem
  · rw [if_pos h, fmod_eq_sub_fdiv_mul]
  · rw [if_neg h]
    have hlt : rem < v := lt_of_not_le h
    have h1 : rem.fdiv v = 0 := by
      rw [Int.fdiv_eq_ediv _ (le_of_lt hv)]
      exact Int.ediv_eq_zero_of_lt hr hlt
    rw [h1, Int.fmod_eq_of_lt hr hlt, updateCount_zero]

/-- The greedy loop over the fixed table, in closed form: starting from the
base stacks with `n` full sets and a non-negative remainder `r`, each
denomination receives the floor-quotient of the running remainder and the
final remainder is the nested floor-modulus chain. -/
theorem distribute_remainder_concrete (n r : ℤ) (hr : 0 ≤ r) :
    distribute_remainder
        [("Black", 100), ("Blue", 50), ("Green", 20), ("Red", 10), ("White", 5)]
        [("Black", n * 10), ("Blue", n * 10), ("Green", n * 13),
         ("Red", n * 14), ("White", n * 20)] r
      = ([("Black", n * 10 + r.fdiv 100),
          ("Blue", n * 10 + (r.fmod 100).fdiv 50),
          ("Green", n * 13 + ((r.fmod 100).fmod 50).fdiv 20),
          ("Red", n * 14 + (((r.fmod 100).fmod 50).fmod 20).fdiv 10),
          ("White", n * 20 + ((((r.fmod 100).fmod 50).fmod 20).fmod 10).fdiv 5)],
         ((((r.fmod 100).fmod 50).fmod 20).fmod 10).fmod 5) := by
  have h1 : (0 : ℤ) ≤ r.fmod 100 := Int.fmod_nonneg' r (by norm_num)
  have h2 : (0 : ℤ) ≤ (r.fmod 100).fmod 50 := Int.fmod_nonneg' _ (by norm_num)
  have h3 : (0 : ℤ) ≤ ((r.fmod 100).fmod 50).fmod 20 :=
    Int.fmod_nonneg' _ (by norm_num)
  have h4 : (0 : ℤ) ≤ (((r.fmod 100).fmod 50).fmod 20).fmod 10 :=
    Int.fmod_nonneg' _ (by norm_num)
  rw [distribute_remainder_cons _ _ _ _ _ (by norm_num) hr,
    distribute_remainder_cons _ _ _ _ _ (by norm_num) h1,
    distribute_remainder_cons _ _ _ _ _ (by norm_num) h2,
    distribute_remainder_cons _ _ _ _ _ (by norm_num) h3,
    distribute_remainder_cons _ _ _ _ _ (by norm_num) h4]
  rfl

/-- The weighted-set value of the fixed table is 2000 cents ($20.00), not
the 3360 cents ($33.60) stated in the specification. -/
theorem value_of_weighted_set_eq :
    ((chip_definitions.map fun c => c.valueCents * c.weight).sum : ℤ) = 2000 := by
  decide

/-- Banker's rounding of a non-negative rational is non-negative. -/
theorem round_half_even_nonneg {q : ℚ} (hq : 0 ≤ q) :
    0 ≤ round_half_even q := by
  have hf : (0 : ℤ) ≤ ⌊q⌋ := Int.floor_nonneg.mpr hq
  unfold round_half_even
  dsimp only
  split_ifs <;> omega

/-- Banker's rounding is the identity on integers. -/
theorem round_half_even_intCast (n : ℤ) : round_half_even (n : ℚ) = n := by
  unfold round_half_even
  rw [Int.floor_intCast]
  norm_num

/-- Evaluating banker's rounding at a rational that is (provably) an
integer. -/
theorem round_half_even_eq_of_intCast {q : ℚ} {n : ℤ} (h : q = (n : ℚ)) :
    round_half_even q = n := by
  rw [h, round_half_even_intCast]

/-- Collapsing the nested floor-modulus chain of the greedy pass: since 5
divides 10, 20, 50 and 100, the final remainder is just `r % 5`. -/
theorem fmod_chain_eq_emod_five (r : ℤ) :
    ((((r.fmod 100).fmod 50).fmod 20).fmod 10).fmod 5 = r % 5 := by
  rw [Int.fmod_eq_emod _ (by norm_num : (0:ℤ) ≤ 5),
    Int.fmod_eq_emod _ (by norm_num : (0:ℤ) ≤ 10),
    Int.fmod_eq_emod _ (by norm_num : (0:ℤ) ≤ 20),
    Int.fmod_eq_emod _ (by norm_num : (0:ℤ) ≤ 50),
    Int.fmod_eq_emod _ (by norm_num : (0:ℤ) ≤ 100),
    Int.emod_emod_of_dvd _ (by norm_num : (5:ℤ) ∣ 10),
    Int.emod_emod_of_dvd _ (by norm_num : (5:ℤ) ∣ 20),
    Int.emod_emod_of_dvd _ (by norm_num : (5:ℤ) ∣ 50),
    Int.emod_emod_of_dvd _ (by norm_num : (5:ℤ) ∣ 100)]

/-- Closed form of `calculate_chip_distribution` for a positive amount,
with `t` the buy-in in integer cents: one full weighted set is worth 2000
cents, each denomination gets `num_sets` times its weight plus the greedy
share of `t % 2000`. -/
theorem calculate_chip_distribution_closed (a : ℚ) (t : ℤ) (ha : 0 < a)
    (ht : round_half_even (a * 100) = t) :
    calculate_chip_distribution a
      = .ok [("Black", t.fdiv 2000 * 10 + (t.fmod 2000).fdiv 100),
             ("Blue", t.fdiv 2000 * 10 + ((t.fmod 2000).fmod 100).fdiv 50),
             ("Green", t.fdiv 2000 * 13 +
               (((t.fmod 2000).fmod 100).fmod 50).fdiv 20),
             ("Red", t.fdiv 2000 * 14 +
               ((((t.fmod 2000).fmod 100).fmod 50).fmod 20).fdiv 10),
             ("White", t.fdiv 2000 * 20 +
               (((((t.fmod 2000).fmod 100).fmod 50).fmod 20).fmod 10).fdiv 5)] := by
  have hna : ¬ a ≤ 0 := not_le.mpr ha
  unfold calculate_chip_distribution calculate_chip_distribution_gen
  rw [if_neg hna]
  dsimp only
  rw [value_of_weighted_set_eq, if_neg (by norm_num : ¬ (2000 : ℤ) = 0), ht]
  have hv : chip_values_desc chip_definitions
      = [("Black", 100), ("Blue", 50), ("Green", 20), ("Red", 10),
         ("White", 5)] := rfl
  have hb : (chip_definitions.map fun c => (c.name, t.fdiv 2000 * c.weight))
      = [("Black", t.fdiv 2000 * 10), ("Blue", t.fdiv 2000 * 10),
         ("Green", t.fdiv 2000 * 13), ("Red", t.fdiv 2000 * 14),
         ("White", t.fdiv 2000 * 20)] := rfl
  rw [hv, hb,
    distribute_remainder_concrete _ _ (Int.fmod_nonneg' t (by norm_num))]

/-- The total value of the returned distribution, in closed form:
`t - t % 5` cents for a buy-in of `t` cents. -/
theorem calculate_chip_distribution_value (a : ℚ) (t : ℤ) (ha : 0 < a)
    (ht : round_half_even (a * 100) = t) :
    (calculate_chip_distribution a).map distribution_value_cents
      = .ok (t - t % 5) := by
  rw [calculate_chip_distribution_closed a t ha ht]
  show Except.ok (distribution_value_cents _) = _
  congr 1
  unfold distribution_value_cents
  have hch : (((((t.fmod 2000).fmod 100).fmod 50).fmod 20).fmod 10).fmod 5
      = t % 5 := by
    rw [fmod_chain_eq_emod_five, Int.fmod_eq_emod _ (by norm_num : (0:ℤ) ≤ 2000),
      Int.emod_emod_of_dvd _ (by norm_num : (5:ℤ) ∣ 2000)]
  have h0 := Int.fdiv_add_fmod t 2000
  have h1 := Int.fdiv_add_fmod (t.fmod 2000) 100
  have h2 := Int.fdiv_add_fmod ((t.fmod 2000).fmod 100) 50
  have h3 := Int.fdiv_add_fmod (((t.fmod 2000).fmod 100).fmod 50) 20
  have h4 := Int.fdiv_add_fmod ((((t.fmod 2000).fmod 100).fmod 50).fmod 20) 10
  have h5 := Int.fdiv_add_fmod (((((t.fmod 2000).fmod 100).fmod 50).fmod 20).fmod 10) 5
  rw [hch] at h5
  simp only [List.map_cons, List.map_nil, List.sum_cons, List.sum_nil]
  rw [show chip_value_map "Black" = 100 from rfl,
    show chip_value_map "Blue" = 50 from rfl,
    show chip_value_map "Green" = 20 from rfl,
    show chip_value_map "Red" = 10 from rfl,
    show chip_value_map "White" = 5 from rfl]
  linarith [h0, h1, h2, h3, h4, h5]

/-- The final `remaining_cents` after the greedy pass, in closed form:
`t % 5` cents for a buy-in of `t` cents. -/
theorem remainder_after_pass_eq (a : ℚ) (t : ℤ)
    (ht : round_half_even (a * 100) = t) :
    remainder_after_pass a = t % 5 := by
  unfold remainder_after_pass
  dsimp only
  rw [value_of_weighted_set_eq, ht]
  have hv : chip_values_desc chip_definitions
      = [("Black", 100), ("Blue", 50), ("Green", 20), ("Red", 10),
         ("White", 5)] := rfl
  have hb : (chip_definitions.map fun c => (c.name, t.fdiv 2000 * c.weight))
      = [("Black", t.fdiv 2000 * 10), ("Blue", t.fdiv 2000 * 10),
         ("Green", t.fdiv 2000 * 13), ("Red", t.fdiv 2000 * 14),
         ("White", t.fdiv 2000 * 20)] := rfl
  rw [hv, hb,
    distribute_remainder_concrete _ _ (Int.fmod_nonneg' t (by norm_num))]
  show (((((t.fmod 2000).fmod 100).fmod 50).fmod 20).fmod 10).fmod 5 = t % 5
  rw [fmod_chain_eq_emod_five, Int.fmod_eq_emod _ (by norm_num : (0:ℤ) ≤ 2000),
    Int.emod_emod_of_dvd _ (by norm_num : (5:ℤ) ∣ 2000)]

/-! ## Claims -/

/-- C1 (counterexample): at amount 0.01 the code returns the all-zero
distribution, whose total value 0 differs from `round(0.01 * 100) = 1`
cent, so the distribution does not reconstruct the input. -/
theorem exact_reconstruction_fails_at_one_cent :
    calculate_chip_distribution (1 / 100)
        = .ok [("Black", 0), ("Blue", 0), ("Green", 0), ("Red", 0), ("White", 0)]
      ∧ distribution_value_cents
          [("Black", 0), ("Blue", 0), ("Green", 0), ("Red", 0), ("White", 0)] = 0
      ∧ round_half_even ((1 / 100 : ℚ) * 100) = 1 := by
  refine ⟨?_, by decide, round_half_even_eq_of_intCast (by norm_num)⟩
  rw [calculate_chip_distribution_closed (1 / 100) 1 (by norm_num)
    (round_half_even_eq_of_intCast (by norm_num))]
  decide

/-- C1 (amended): for every amount > 0 whose integer-cent value
`round(amount * 100)` is a multiple of 5 cents, the returned distribution
reconstructs the input exactly: the sum over all five denominations of
`count[d]` times the denomination's value in integer cents equals
`round(amount * 100)`. (Amount 0.01 is excluded: its cent value 1 is not a
multiple of the smallest denomination and the residue is dropped.) -/
theorem exact_reconstruction_on_five_cent_amounts (a : ℚ) (ha : 0 < a)
    (h5 : (5 : ℤ) ∣ round_half_even (a * 100)) :
    (calculate_chip_distribution a).map distribution_value_cents
      = .ok (round_half_even (a * 100)) := by
  rw [calculate_chip_distribution_value a _ ha rfl,
    Int.emod_eq_zero_of_dvd h5, sub_zero]

/-- C1 (witness): instantiation at amount 20.00. -/
theorem exact_reconstruction_witness :
    (0 : ℚ) < 20 ∧ (5 : ℤ) ∣ round_half_even ((20 : ℚ) * 100)
      ∧ (calculate_chip_distribution 20).map distribution_value_cents
          = .ok (round_half_even ((20 : ℚ) * 100)) := by
  have h5 : (5 : ℤ) ∣ round_half_even ((20 : ℚ) * 100) := by
    rw [round_half_even_eq_of_intCast (by norm_num : (20 : ℚ) * 100 = ((2000 : ℤ) : ℚ))]
    decide
  exact ⟨by norm_num, h5,
    exact_reconstruction_on_five_cent_amounts 20 (by norm_num) h5⟩

/-- C2 (counterexample): at amount 0.01 the remainder after the greedy pass
is 1 cent, not zero, and the function still returns a distribution instead
of failing. -/
theorem zero_remainder_fails_at_one_cent :
    remainder_after_pass (1 / 100) = 1
      ∧ (calculate_chip_distribution (1 / 100)).isOk = true := by
  constructor
  · rw [remainder_after_pass_eq (1 / 100) 1
      (round_half_even_eq_of_intCast (by norm_num))]
    decide
  · rw [calculate_chip_distribution_closed (1 / 100) 1 (by norm_num)
      (round_half_even_eq_of_intCast (by norm_num))]
    rfl

/-- C2 (amended): for every amount > 0, the remaining cents after the greedy
pass equal `round(amount * 100) % 5`; they are zero exactly when the cent
value is a multiple of 5, and when they are non-zero the function still
returns a distribution, silently dropping the residue, rather than
signalling an error. -/
theorem remainder_after_pass_mod_five (a : ℚ) (ha : 0 < a) :
    remainder_after_pass a = round_half_even (a * 100) % 5
      ∧ (calculate_chip_distribution a).isOk = true := by
  refine ⟨remainder_after_pass_eq a _ rfl, ?_⟩
  rw [calculate_chip_distribution_closed a _ ha rfl]
  rfl

/-- C2 (witness): instantiation at amount 33.97 (remainder 2 cents). -/
theorem remainder_after_pass_witness :
    remainder_after_pass (3397 / 100)
        = round_half_even ((3397 / 100 : ℚ) * 100) % 5
      ∧ (calculate_chip_distribution (3397 / 100)).isOk = true :=
  remainder_after_pass_mod_five (3397 / 100) (by norm_num)

/-- C3: for every amount > 0, `calculate_chip_distribution` returns a
distribution (never an error), and its total value in cents is
`total_cents - (total_cents % 5)` where `total_cents = round(amount * 100)`:
any residue below the smallest 5-cent denomination is silently discarded
with no error signalled. -/
theorem calculate_total_value_drops_sub_nickel (a : ℚ) (ha : 0 < a) :
    (calculate_chip_distribution a).isOk = true
      ∧ (calculate_chip_distribution a).map distribution_value_cents
          = .ok (round_half_even (a * 100) - round_half_even (a * 100) % 5) := by
  constructor
  · rw [calculate_chip_distribution_closed a _ ha rfl]; rfl
  · exact calculate_chip_distribution_value a _ ha rfl

/-- C3 (witness): instantiation at amount 0.01 (value 0 = 1 - 1 % 5). -/
theorem calculate_total_value_witness :
    (calculate_chip_distribution (1 / 100)).isOk = true
      ∧ (calculate_chip_distribution (1 / 100)).map distribution_value_cents
          = .ok (round_half_even ((1 / 100 : ℚ) * 100)
              - round_half_even ((1 / 100 : ℚ) * 100) % 5) :=
  calculate_total_value_drops_sub_nickel (1 / 100) (by norm_num)

/-- C4 (counterexample): the specification's reference algorithm with its
stated set value of 3360 cents predicts, at amount 33.97, the one-set base
counts plus one Green, one Red and one White; the code (whose weighted set
is worth 2000 cents) returns a different distribution. -/
theorem reference_3360_mismatch :
    reference_distribution 3360 3397
        = [("Black", 10), ("Blue", 10), ("Green", 14), ("Red", 15),
           ("White", 21)]
      ∧ calculate_chip_distribution (3397 / 100)
        = .ok [("Black", 23), ("Blue", 11), ("Green", 15), ("Red", 14),
               ("White", 21)]
      ∧ calculate_chip_distribution (3397 / 100)
        ≠ .ok (reference_distribution 3360 3397) := by
  refine ⟨by decide, ?_, ?_⟩ <;>
    rw [calculate_chip_distribution_closed (3397 / 100) 3397 (by norm_num)
      (round_half_even_eq_of_intCast (by norm_num))] <;>
    decide

/-- C4 (amended): for every amount > 0, the returned distribution equals
the reference algorithm with the actual set value of 2000 cents:
`count[d] = (total_cents // 2000) * weight[d]` plus the greedy allocation
of `remainder = total_cents % 2000` in the fixed order Black, Blue, Green,
Red, White with `extra = remainder // value_cents[d]` at each step. -/
theorem calculate_matches_reference (a : ℚ) (t : ℤ) (ha : 0 < a)
    (ht : round_half_even (a * 100) = t) :
    calculate_chip_distribution a = .ok (reference_distribution 2000 t) := by
  rw [calculate_chip_distribution_closed a t ha ht]
  unfold reference_distribution
  dsimp only
  rw [← fmod_eq_sub_fdiv_mul (t.fmod 2000) 100,
    ← fmod_eq_sub_fdiv_mul ((t.fmod 2000).fmod 100) 50,
    ← fmod_eq_sub_fdiv_mul (((t.fmod 2000).fmod 100).fmod 50) 20,
    ← fmod_eq_sub_fdiv_mul ((((t.fmod 2000).fmod 100).fmod 50).fmod 20) 10]

/-- C4 (witness): instantiation at amount 33.97, where the reference
algorithm with set value 2000 yields
Black 23, Blue 11, Green 15, Red 14, White 21. -/
theorem calculate_matches_reference_witness :
    calculate_chip_distribution (3397 / 100)
        = .ok (reference_distribution 2000 3397)
      ∧ reference_distribution 2000 3397
        = [("Black", 23), ("Blue", 11), ("Green", 15), ("Red", 14),
           ("White", 21)] :=
  ⟨calculate_matches_reference (3397 / 100) 3397 (by norm_num)
      (round_half_even_eq_of_intCast (by norm_num)),
   by decide⟩

/-- C5 (counterexample): at amount 33.60 (k = 1 in the claim) the code does
not return the pure weight vector {Black 10, Blue 10, Green 13, Red 14,
White 20}: 3360 cents contain one full 2000-cent weighted set plus a
1360-cent remainder, which triggers the greedy pass. -/
theorem weights_fail_at_33_60 :
    calculate_chip_distribution (336 / 10)
        = .ok [("Black", 23), ("Blue", 11), ("Green", 13), ("Red", 15),
               ("White", 20)]
      ∧ calculate_chip_distribution (336 / 10)
        ≠ .ok [("Black", 10), ("Blue", 10), ("Green", 13), ("Red", 14),
               ("White", 20)] := by
  refine ⟨?_, ?_⟩ <;>
    rw [calculate_chip_distribution_closed (336 / 10) 3360 (by norm_num)
      (round_half_even_eq_of_intCast (by norm_num))] <;>
    decide

/-- C5 (amended): for every positive integer k, calling
`calculate_chip_distribution` with amount `k * 20.00` (k times the actual
2000-cent weighted-set value, not `k * 33.60`) returns
`count[d] = k * weight[d]` exactly for every denomination, with no
remainder distribution triggered. -/
theorem weights_exact_at_set_multiples (k : ℤ) (hk : 0 < k) :
    calculate_chip_distribution ((k : ℚ) * 20)
      = .ok [("Black", k * 10), ("Blue", k * 10), ("Green", k * 13),
             ("Red", k * 14), ("White", k * 20)] := by
  have ht : round_half_even (((k : ℚ) * 20) * 100) = 2000 * k := by
    rw [show ((k : ℚ) * 20) * 100 = ((2000 * k : ℤ) : ℚ) by push_cast; ring]
    exact round_half_even_intCast _
  have ha : (0 : ℚ) < (k : ℚ) * 20 := by
    have : (0 : ℚ) < (k : ℚ) := by exact_mod_cast hk
    linarith
  rw [calculate_chip_distribution_closed _ _ ha ht]
  have hd : (2000 * k).fdiv 2000 = k := by
    rw [Int.fdiv_eq_ediv _ (by norm_num)]
    exact Int.mul_ediv_cancel_left k (by norm_num)
  have hm : (2000 * k).fmod 2000 = 0 := by
    rw [Int.fmod_eq_emod _ (by norm_num)]
    exact Int.mul_emod_right 2000 k
  rw [hd, hm]
  norm_num [Int.zero_fdiv, Int.zero_fmod]

/-- C5 (witness): instantiation at k = 1 (amount 20.00). -/
theorem weights_exact_witness :
    (0 : ℤ) < 1
      ∧ calculate_chip_distribution (((1 : ℤ) : ℚ) * 20)
        = .ok [("Black", (1 : ℤ) * 10), ("Blue", 1 * 10), ("Green", 1 * 13),
               ("Red", 1 * 14), ("White", 1 * 20)] :=
  ⟨by norm_num, weights_exact_at_set_multiples 1 (by norm_num)⟩

/-- C6: for every amount ≤ 0 the function signals the invalid-amount
validation error (prints the error message and returns `None` in the
source) and returns no distribution, not even a partial one. -/
theorem nonpositive_amount_rejected (a : ℚ) (ha : a ≤ 0) :
    calculate_chip_distribution a = .error .invalidAmount := by
  unfold calculate_chip_distribution calculate_chip_distribution_gen
  rw [if_pos ha]

/-- C6 (witness): instantiation at amounts 0 and -5.00. -/
theorem nonpositive_amount_rejected_witness :
    calculate_chip_distribution 0 = .error .invalidAmount
      ∧ calculate_chip_distribution (-5) = .error .invalidAmount :=
  ⟨nonpositive_amount_rejected 0 (by norm_num),
   nonpositive_amount_rejected (-5) (by norm_num)⟩

/-- C7: the HTTP handler returns a 400 error with a message for every
`buy_in ≤ 0`, and for every `buy_in > 0` the distribution succeeds and the
handler returns the JSON object `{buy_in, chip_distribution, total_chips}`
with `chip_distribution = calculate_chip_distribution buy_in` and
`total_chips` the sum of all counts. -/
theorem api_contract (b : ℚ) :
    (b ≤ 0 → get_chip_distribution_api b
        = .err 400 "Buy-in amount must be positive")
      ∧ (0 < b → ∃ d, calculate_chip_distribution b = .ok d ∧
          get_chip_distribution_api b = .ok b d ((d.map Prod.snd).sum)) := by
  constructor
  · intro hb
    unfold get_chip_distribution_api get_chip_distribution_api_gen
    rw [if_pos hb]
  · intro hb
    refine ⟨_, calculate_chip_distribution_closed b _ hb rfl, ?_⟩
    unfold get_chip_distribution_api get_chip_distribution_api_gen
    rw [if_neg (not_le.mpr hb),
      show calculate_chip_distribution_gen chip_definitions b
        = calculate_chip_distribution b from rfl,
      calculate_chip_distribution_closed b _ hb rfl]
    rfl

/-- C7 (witness): instantiation at buy-ins -1 (400 path) and 20 (JSON
path). -/
theorem api_contract_witness :
    get_chip_distribution_api (-1) = .err 400 "Buy-in amount must be positive"
      ∧ ∃ d, calculate_chip_distribution 20 = .ok d ∧
          get_chip_distribution_api 20 = .ok 20 d ((d.map Prod.snd).sum) :=
  ⟨(api_contract (-1)).1 (by norm_num), (api_contract 20).2 (by norm_num)⟩

/-- C8: a configuration whose weighted set sums to zero value produces the
configuration error, distinct from the validation error for non-positive
amounts; at the HTTP layer the former surfaces as a 500 response and the
latter as a 400 response. -/
theorem degenerate_config_distinct_error (defs : List ChipDef) (a b : ℚ)
    (hzero : (defs.map fun c => c.valueCents * c.weight).sum = 0)
    (ha : 0 < a) (hb : b ≤ 0) :
    calculate_chip_distribution_gen defs a = .error .zeroValueSet
      ∧ calculate_chip_distribution_gen defs b = .error .invalidAmount
      ∧ ChipError.zeroValueSet ≠ ChipError.invalidAmount
      ∧ get_chip_distribution_api_gen defs a
          = .err 500 "Failed to calculate chip distribution"
      ∧ get_chip_distribution_api_gen defs b
          = .err 400 "Buy-in amount must be positive" := by
  have h1 : calculate_chip_distribution_gen defs a = .error .zeroValueSet := by
    unfold calculate_chip_distribution_gen
    rw [if_neg (not_le.mpr ha)]
    dsimp only
    rw [hzero, if_pos rfl]
  refine ⟨h1, ?_, by decide, ?_, ?_⟩
  · unfold calculate_chip_distribution_gen
    rw [if_pos hb]
  · unfold get_chip_distribution_api_gen
    rw [if_neg (not_le.mpr ha), h1]
  · unfold get_chip_distribution_api_gen
    rw [if_pos hb]

/-- C8 (witness): a five-denomination table with all weights zero sums to a
zero-value weighted set; instantiation at amounts 1 and -1. -/
theorem degenerate_config_witness :
    calculate_chip_distribution_gen
        [⟨"Black", 100, 0⟩, ⟨"Blue", 50, 0⟩, ⟨"Green", 20, 0⟩,
         ⟨"Red", 10, 0⟩, ⟨"White", 5, 0⟩] 1 = .error .zeroValueSet
      ∧ calculate_chip_distribution_gen
          [⟨"Black", 100, 0⟩, ⟨"Blue", 50, 0⟩, ⟨"Green", 20, 0⟩,
           ⟨"Red", 10, 0⟩, ⟨"White", 5, 0⟩] (-1) = .error .invalidAmount
      ∧ ChipError.zeroValueSet ≠ ChipError.invalidAmount
      ∧ get_chip_distribution_api_gen
          [⟨"Black", 100, 0⟩, ⟨"Blue", 50, 0⟩, ⟨"Green", 20, 0⟩,
           ⟨"Red", 10, 0⟩, ⟨"White", 5, 0⟩] 1
          = .err 500 "Failed to calculate chip distribution"
      ∧ get_chip_distribution_api_gen
          [⟨"Black", 100, 0⟩, ⟨"Blue", 50, 0⟩, ⟨"Green", 20, 0⟩,
           ⟨"Red", 10, 0⟩, ⟨"White", 5, 0⟩] (-1)
          = .err 400 "Buy-in amount must be positive" :=
  degenerate_config_distinct_error _ 1 (-1) (by decide) (by norm_num)
    (by norm_num)

/-- C9: `calculate_chip_distribution` is deterministic — any two calls with
the same amount return identical mappings (the embedding is a pure
function, so equal inputs give equal outputs). -/
theorem calculate_deterministic (a₁ a₂ : ℚ) (h : a₁ = a₂) :
    calculate_chip_distribution a₁ = calculate_chip_distribution a₂ := by
  rw [h]

/-- C9 (witness): instantiation at two calls with amount 20.00. -/
theorem calculate_deterministic_witness :
    calculate_chip_distribution 20 = calculate_chip_distribution 20 :=
  calculate_deterministic 20 20 rfl

/-- C10: for every amount > 0, the returned mapping has exactly the five
keys Black, Blue, Green, Red, White in order, and every chip count is
non-negative. -/
theorem distribution_keys_and_counts_nonneg (a : ℚ) (d : List (String × ℤ))
    (ha : 0 < a) (hd : calculate_chip_distribution a = .ok d) :
    d.map Prod.fst = ["Black", "Blue", "Green", "Red", "White"]
      ∧ d.all (fun p => decide (0 ≤ p.2)) = true := by
  have hc := calculate_chip_distribution_closed a _ ha rfl
  rw [hd] at hc
  injection hc with hde
  subst hde
  have ht0 : (0 : ℤ) ≤ round_half_even (a * 100) :=
    round_half_even_nonneg (by positivity)
  have hn : (0 : ℤ) ≤ (round_half_even (a * 100)).fdiv 2000 :=
    Int.fdiv_nonneg ht0 (by norm_num)
  have hr0 : (0 : ℤ) ≤ (round_half_even (a * 100)).fmod 2000 :=
    Int.fmod_nonneg' _ (by norm_num)
  have hr1 : (0 : ℤ) ≤ ((round_half_even (a * 100)).fmod 2000).fmod 100 :=
    Int.fmod_nonneg' _ (by norm_num)
  have hr2 : (0 : ℤ) ≤
      (((round_half_even (a * 100)).fmod 2000).fmod 100).fmod 50 :=
    Int.fmod_nonneg' _ (by norm_num)
  have hr3 : (0 : ℤ) ≤
      ((((round_half_even (a * 100)).fmod 2000).fmod 100).fmod 50).fmod 20 :=
    Int.fmod_nonneg' _ (by norm_num)
  have hr4 : (0 : ℤ) ≤
      (((((round_half_even (a * 100)).fmod 2000).fmod 100).fmod 50).fmod
        20).fmod 10 :=
    Int.fmod_nonneg' _ (by norm_num)
  have he1 := Int.fdiv_nonneg hr0 (by norm_num : (0:ℤ) ≤ 100)
  have he2 := Int.fdiv_nonneg hr1 (by norm_num : (0:ℤ) ≤ 50)
  have he3 := Int.fdiv_nonneg hr2 (by norm_num : (0:ℤ) ≤ 20)
  have he4 := Int.fdiv_nonneg hr3 (by norm_num : (0:ℤ) ≤ 10)
  have he5 := Int.fdiv_nonneg hr4 (by norm_num : (0:ℤ) ≤ 5)
  refine ⟨rfl, ?_⟩
  simp only [List.all_cons, List.all_nil, Bool.and_eq_true,
    decide_eq_true_eq, and_true]
  refine ⟨?_, ?_, ?_, ?_, ?_⟩ <;> linarith

/-- C10 (witness): instantiation at amount 20.00 with its concrete
distribution. -/
theorem distribution_keys_witness :
    [("Black", (10:ℤ)), ("Blue", 10), ("Green", 13), ("Red", 14),
        ("White", 20)].map Prod.fst
      = ["Black", "Blue", "Green", "Red", "White"]
      ∧ [("Black", (10:ℤ)), ("Blue", 10), ("Green", 13), ("Red", 14),
          ("White", 20)].all (fun p => decide (0 ≤ p.2)) = true :=
  distribution_keys_and_counts_nonneg 20 _ (by norm_num) (by
    rw [calculate_chip_distribution_closed 20 2000 (by norm_num)
      (round_half_even_eq_of_intCast (by norm_num))]
    decide)

end PokerNight
